import Mathlib

/-!
# Shallow embedding of `src/json_handler.py` (SafeJsonStore / `JsonHandler`)

The Python module implements a defensive JSON file read/write helper:
path containment checks, optional JSON-Schema validation, size limits,
backup-before-overwrite, atomic write-to-temp-then-rename, and
conversion of every internal failure into a structured result.

Modelling decisions (each noted again at the definition it concerns):

* JSON documents are the inductive `Json` (null, bool, integer number,
  string, array, object).  A file's bytes are modelled by `FileContent`:
  either `wellFormed v` — text that parses to the JSON value `v` — or
  `malformed s` — raw text that is not valid JSON.  Byte-identity of file
  contents is equality of `FileContent`.
* The filesystem is an explicit state `FSState`: an association list from
  paths to file contents plus a list of existing directories.  Paths are
  `FPath` (directory components plus file name), mirroring `pathlib.Path`
  far enough for the operations the module uses.
* `Path.resolve()` (symlink and `..` collapsing, which depends on the real
  filesystem) is an oracle `Env.resolve`; `tempfile.mkstemp`'s random name
  component is the oracle `Env.tempTag`; injectable I/O failures of
  `json.dump` and `Path.replace` are the oracle flags `Env.dumpFail` and
  `Env.replaceFail`, modelling the exceptions those calls can raise.
* Python exceptions are `Except`: each public operation has an
  exception-transparent body (`readExc`, `writeExc`) and a top-level
  wrapper (`read`, `write`) that converts any escaped exception into a
  failure result, exactly like the outermost `try/except` in the source.
* The `jsonschema` library's `validate` is modelled by `jsValidate`,
  restricted to the draft-07 fragment the repository uses
  (`type`, `properties`, `required`).
* Logging (`_log`, `silent`, `logger`) has no effect on results or files
  and is omitted; `encoding`, `indent` and `ensure_ascii` only change the
  byte-level layout of the serialized text, which the `FileContent`
  abstraction collapses, so they are carried as inert parameters.
-/

namespace JsonHandlerModel

/-- JSON values (numbers restricted to integers; floats do not occur in the
repository's data or tests). -/
inductive Json where
  | null
  | bool (b : Bool)
  | num (n : Int)
  | str (s : String)
  | arr (elems : List Json)
  | obj (fields : List (String × Json))

/-- `true` iff the top-level value is a JSON object (a Python `dict`). -/
def Json.isObj : Json → Bool
  | .obj _ => true
  | _ => false

/-- The key/value fields of a top-level object; `[]` for any other value.
This is what `dict(ijson.kvitems(file, ''))` produces: `kvitems` with empty
prefix yields the members of the top-level object and yields nothing when
the top-level value is not an object. -/
def Json.objFields : Json → List (String × Json)
  | .obj kvs => kvs
  | _ => []

/-- A filesystem path: directory components plus the final name.  Models the
`pathlib.Path` values the module constructs. -/
structure FPath where
  dir : List String
  name : String
deriving DecidableEq

/-- The full component list of a path (used for `is_relative_to`, which on
resolved paths is component-wise prefix). -/
def FPath.components (p : FPath) : List String :=
  p.dir ++ [p.name]

/-- Rendering of a path into error-message text (models `f"{path}"`). -/
def FPath.render (p : FPath) : String :=
  String.intercalate "/" p.components

/-- `path.with_suffix(f"{path.suffix}.bak")`: the backup path alongside the
target.  Replacing the final suffix by itself plus `.bak` appends `.bak` to
the name. -/
def bakPath (p : FPath) : FPath :=
  ⟨p.dir, p.name ++ ".bak"⟩

/-- The temporary path `tempfile.mkstemp(dir=path.parent,
prefix=f".{path.name}.", suffix='.tmp')` creates: in the target's directory,
name `.<target name>.<random tag>.tmp`.  The random tag is the oracle
`tag`. -/
def tempPathFor (p : FPath) (tag : String) : FPath :=
  ⟨p.dir, "." ++ p.name ++ "." ++ tag ++ ".tmp"⟩

/-- Contents of one file.  `wellFormed v` stands for text whose JSON parse is
`v` (for an object value, `v`'s field list is the parsed mapping, keys
already unique); `malformed s` stands for text that is not valid JSON.
Equality of `FileContent` models byte-identity of file contents. -/
inductive FileContent where
  | wellFormed (v : Json)
  | malformed (raw : String)

mutual

/-- Serialized length of a JSON value: an abstract but value-determined
measure of the byte length of the file's text (the claims only ever compare
it against `max_size_bytes`). -/
def jsonSize : Json → Nat
  | .null => 4
  | .bool _ => 5
  | .num n => n.natAbs + 1
  | .str s => s.length + 2
  | .arr xs => jsonSizeList xs + 2
  | .obj kvs => jsonSizeFields kvs + 2

/-- Summed serialized length of array elements. -/
def jsonSizeList : List Json → Nat
  | [] => 0
  | x :: xs => jsonSize x + jsonSizeList xs + 1

/-- Summed serialized length of object fields. -/
def jsonSizeFields : List (String × Json) → Nat
  | [] => 0
  | (k, v) :: kvs => k.length + jsonSize v + jsonSizeFields kvs + 4

end

/-- File size in bytes (`path.stat().st_size`). -/
def fileSize : FileContent → Nat
  | .wellFormed v => jsonSize v
  | .malformed s => s.length

/-- Filesystem state: files (association list, newest binding first) and the
set of existing directories. -/
structure FSState where
  files : List (FPath × FileContent)
  dirs : List (List String)

/-- Content of the file at `p`, `none` when no regular file is there. -/
def FSState.getFile (s : FSState) (p : FPath) : Option FileContent :=
  (s.files.find? (fun e => decide (e.1 = p))).map (·.2)

/-- Create or overwrite the file at `p`. -/
def FSState.setFile (s : FSState) (p : FPath) (c : FileContent) : FSState :=
  { s with files := (p, c) :: s.files.filter (fun e => decide (e.1 ≠ p)) }

/-- Delete the file at `p` (`Path.unlink`). -/
def FSState.removeFile (s : FSState) (p : FPath) : FSState :=
  { s with files := s.files.filter (fun e => decide (e.1 ≠ p)) }

/-- `path.exists()`: a regular file or a directory is present at `p`. -/
def FSState.existsAt (s : FSState) (p : FPath) : Bool :=
  (s.getFile p).isSome || s.dirs.contains p.components

/-- `path.is_file()`. -/
def FSState.isFile (s : FSState) (p : FPath) : Bool :=
  (s.getFile p).isSome

/-- All prefixes of a directory's component list, for
`mkdir(parents=True)`. -/
def dirPrefixes (d : List String) : List (List String) :=
  (List.range (d.length + 1)).map (fun k => d.take k)

/-- `path.parent.mkdir(parents=True, exist_ok=True)`: the parent directory
and all its ancestors exist afterwards. -/
def FSState.mkdirParents (s : FSState) (p : FPath) : FSState :=
  { s with dirs := dirPrefixes p.dir ++ s.dirs }

/-- `shutil.copy2(src, dst)` when `src` is an existing regular file: `dst`
gets `src`'s (byte-identical) content.  The module only calls it on paths it
has just checked to exist. -/
def FSState.copyFile (s : FSState) (src dst : FPath) : FSState :=
  match s.getFile src with
  | some c => s.setFile dst c
  | none => s

/-! ## JSON Schema (the draft-07 fragment the repository uses) -/

/-- The JSON types a schema's `type`/`properties` entries can name. -/
inductive JsonType where
  | object | array | string | number | boolean | nullType
deriving DecidableEq

/-- The name a validator message uses for a JSON type. -/
def JsonType.describe : JsonType → String
  | .object => "object"
  | .array => "array"
  | .string => "string"
  | .number => "number"
  | .boolean => "boolean"
  | .nullType => "null"

/-- The JSON type of a value (`number` covers the integer numbers of this
model, as draft-07's `number` accepts integers). -/
def Json.typeOf : Json → JsonType
  | .null => .nullType
  | .bool _ => .boolean
  | .num _ => .number
  | .str _ => .string
  | .arr _ => .array
  | .obj _ => .object

/-- A JSON Schema document, restricted to the keywords the repository's
schemas use: `type`, `properties` (each property constrained by a `type`),
and `required`. -/
structure JsonSchema where
  type : Option JsonType
  properties : List (String × JsonType)
  required : List String
deriving DecidableEq

/-- Value bound to key `k` in an object's field list, if present. -/
def lookupField (kvs : List (String × Json)) (k : String) : Option Json :=
  (kvs.find? (fun e => decide (e.1 = k))).map (·.2)

/-- First property of `props` whose value is present in `kvs` with the wrong
type, reported with the validator's description of the violation. -/
def checkProperties (kvs : List (String × Json)) :
    List (String × JsonType) → Option String
  | [] => none
  | (k, t) :: props =>
    match lookupField kvs k with
    | some v =>
      if v.typeOf = t then checkProperties kvs props
      else some (k ++ " is not of type " ++ JsonType.describe t)
    | none => checkProperties kvs props

/-- First key of `req` missing from `kvs`, reported as a `required`
violation. -/
def checkRequired (kvs : List (String × Json)) : List String → Option String
  | [] => none
  | k :: req =>
    if (lookupField kvs k).isSome then checkRequired kvs req
    else some (k ++ " is a required property")

/-- Models `jsonschema.validate(instance=v, schema=sch)` on the supported
fragment: `none` on success, `some message` describing the first violated
constraint otherwise (the library raises `ValidationError` with such a
message). -/
def jsValidate (sch : JsonSchema) (v : Json) : Option String :=
  match sch.type with
  | some t =>
    if v.typeOf = t then
      match v with
      | .obj kvs =>
        match checkProperties kvs sch.properties with
        | some m => some m
        | none => checkRequired kvs sch.required
      | _ => none
    else some ("value is not of type " ++ JsonType.describe t)
  | none =>
    match v with
    | .obj kvs =>
      match checkProperties kvs sch.properties with
      | some m => some m
      | none => checkRequired kvs sch.required
    | _ => none

/-! ## The handler and its environment -/

/-- Construction-time configuration of `JsonHandler` (`__init__`).
`base_path` is stored already resolved (`Path(base_path).resolve()`), as its
component list.  The `logger`/`silent` logging knobs and the text `encoding`
do not influence results or the content model and are omitted. -/
structure JsonHandler where
  base_path : Option (List String)
  schema : Option JsonSchema
  max_size_bytes : Nat

/-- Oracle for the parts of a call's behaviour decided outside the module:
`resolve` is `Path.resolve()` (`none` models resolution raising), `tempTag`
the random component `tempfile.mkstemp` picks, and `dumpFail`/`replaceFail`
inject the exceptions `json.dump` and `Path.replace` can raise during the
write attempt. -/
structure Env where
  resolve : FPath → Option FPath
  tempTag : String
  dumpFail : Bool
  replaceFail : Bool

/-- Result record `JsonOperationResult`. -/
structure JsonOperationResult where
  data : Option Json
  success : Bool
  error_message : Option String
  file_path : Option FPath

/-- `JsonHandler._validate_path`: resolve the path, and when a base path is
configured reject resolved paths not relative to it; a resolution error is
reported as a path validation error.  Returns the error message, or `none`
on success. -/
def validate_path (h : JsonHandler) (env : Env) (path : FPath) :
    Option String :=
  match env.resolve path with
  | some resolved =>
    match h.base_path with
    | some base =>
      if base.isPrefixOf resolved.components then none
      else some "Access denied: File outside base path"
    | none => none
  | none => some "Path validation error: resolution failed"

/-- `JsonHandler._validate_schema`: validate `data` against the store's own
schema if one is set.  Note the source consults `self.schema` only; the
per-call `schema` argument of `read`/`write` is never passed to it. -/
def validate_schema (h : JsonHandler) (data : Json) : Option String :=
  match h.schema with
  | some sch =>
    match jsValidate sch data with
    | some m => some ("Schema validation error: " ++ m)
    | none => none
  | none => none

/-! ## read -/

/-- Eager parse, `json.load(file)`: the value the text encodes, or the
`json` module's `JSONDecodeError` for malformed text. -/
def eagerParse : FileContent → Except String Json
  | .wellFormed v => .ok v
  | .malformed _ => .error "Expecting value: line 1 column 1 (char 0)"

/-- Streaming parse, `dict(ijson.kvitems(file, ''))`: the key/value members
of the top-level object — and the empty mapping when the top-level value is
not an object, since `kvitems` then yields nothing; malformed text makes
`ijson` raise while `dict` drains the iterator. -/
def streamingParse : FileContent → Except String Json
  | .wellFormed v => .ok (.obj v.objFields)
  | .malformed _ => .error "ijson: parse error"

/-- Body of `JsonHandler.read`, exception-transparent: the `try` block from
path validation to the success result.  An `.error` is an exception escaping
to the surrounding `except` clause (the source has no dedicated handler for
parse errors: `json.load`/`ijson` failures surface here). -/
def readExc (h : JsonHandler) (env : Env) (st : FSState) (path : FPath)
    (use_streaming : Bool) : Except String JsonOperationResult :=
  match validate_path h env path with
  | some error_msg => .ok ⟨none, false, some error_msg, some path⟩
  | none =>
  if ¬ st.existsAt path then
    .ok ⟨none, false, some ("File not found: " ++ path.render), some path⟩
  else
    match st.getFile path with
    | none =>
      -- the path exists but is not a regular file
      .ok ⟨none, false, some ("Not a file: " ++ path.render), some path⟩
    | some content =>
      if fileSize content > h.max_size_bytes then
        .ok ⟨none, false, some ("File too large: " ++ path.render),
             some path⟩
      else
        match (if use_streaming then streamingParse content
               else eagerParse content) with
        | .error e => .error e
        | .ok data =>
          match validate_schema h data with
          | some error_msg => .ok ⟨none, false, some error_msg, some path⟩
          | none => .ok ⟨some data, true, none, some path⟩

/-- `JsonHandler.read`.  The `schema` argument is the per-call override the
signature offers; the body never uses it (it is not forwarded to
`_validate_schema`), which this embedding reproduces.  The outer `except`
converts any escaped exception into a failure result carrying the path. -/
def read (h : JsonHandler) (env : Env) (st : FSState) (path : FPath)
    (use_streaming : Bool) (schema : Option JsonSchema) :
    JsonOperationResult :=
  match readExc h env st path use_streaming with
  | .ok r => r
  | .error e => ⟨none, false, some ("Error reading JSON: " ++ e), some path⟩

/-! ## write -/

/-- The inner `try` block of `write` that performs the actual write.
Returns the files state afterwards, whether a temporary file was created
(`'temp_path' in locals()`), and the exception raised, if any.

Atomic path: `mkstemp` creates an empty file at the temp path, `json.dump`
fills it (or raises, per `Env.dumpFail`), `temp_path.replace(path)` moves it
onto the target (or raises, per `Env.replaceFail`).  Non-atomic path:
`path.open('w')` truncates the target, then `json.dump` fills it (a dump
failure leaves the truncated file behind). -/
def writeAttempt (env : Env) (st : FSState) (data : Json) (path : FPath)
    (atomic : Bool) : FSState × Bool × Option String :=
  if atomic then
    let temp_path := tempPathFor path env.tempTag
    let st1 := st.setFile temp_path (.malformed "")
    if env.dumpFail then
      (st1, true, some "Object of type set is not JSON serializable")
    else
      let st2 := st1.setFile temp_path (.wellFormed data)
      if env.replaceFail then
        (st2, true, some "Device or resource busy")
      else
        ((st2.removeFile temp_path).setFile path (.wellFormed data),
         true, none)
  else
    let st1 := st.setFile path (.malformed "")
    if env.dumpFail then
      (st1, false, some "Object of type set is not JSON serializable")
    else
      (st1.setFile path (.wellFormed data), false, none)

/-- The `finally` clause of `write`: if this was an atomic write whose
temporary file was created and still exists, delete it (a deletion failure
would only be logged; `unlink` of an existing file in the model succeeds). -/
def cleanupTemp (st : FSState) (atomic tempCreated : Bool)
    (temp_path : FPath) : FSState :=
  if atomic && tempCreated && (st.getFile temp_path).isSome then
    st.removeFile temp_path
  else st

/-- Body of `JsonHandler.write`, exception-transparent: path validation,
schema validation, parent-directory creation, backup, the inner
`try/except/finally` around the write attempt.  An `.error` carries the
exception message together with the filesystem state at the moment it
escapes (side effects are not rolled back). -/
def writeExc (h : JsonHandler) (env : Env) (st : FSState) (data : Json)
    (path : FPath) (backup atomic : Bool) :
    Except (String × FSState) (JsonOperationResult × FSState) :=
  match validate_path h env path with
  | some error_msg => .ok (⟨none, false, some error_msg, none⟩, st)
  | none =>
  match validate_schema h data with
  | some error_msg => .ok (⟨none, false, some error_msg, none⟩, st)
  | none =>
  let st1 := st.mkdirParents path
  -- backup_path is set iff backup is requested and the target exists
  let backupMade := backup && st1.existsAt path
  let st2 := if backupMade then st1.copyFile path (bakPath path) else st1
  match writeAttempt env st2 data path atomic with
  | (st3, tempCreated, none) =>
    let st4 := cleanupTemp st3 atomic tempCreated (tempPathFor path env.tempTag)
    .ok (⟨some data, true, none, some path⟩, st4)
  | (st3, tempCreated, some e) =>
    -- except: restore the backup if one was made and still exists; re-raise
    let st4 := if backup && backupMade && (st3.getFile (bakPath path)).isSome
               then st3.copyFile (bakPath path) path else st3
    let st5 := cleanupTemp st4 atomic tempCreated (tempPathFor path env.tempTag)
    .error (e, st5)

/-- `JsonHandler.write`.  `indent` and `ensure_ascii` shape only the
serialized text, which the content model abstracts; `schema` is the per-call
override the signature offers, never used by the body (not forwarded to
`_validate_schema`) — both carried for signature fidelity.  The outer
`except` converts any escaped exception into a failure result with no
file path. -/
def write (h : JsonHandler) (env : Env) (st : FSState) (data : Json)
    (path : FPath) (indent : Nat) (ensure_ascii : Bool)
    (backup atomic : Bool) (schema : Option JsonSchema) :
    JsonOperationResult × FSState :=
  match writeExc h env st data path backup atomic with
  | .ok r => r
  | .error (e, s) =>
    (⟨none, false, some ("Error writing JSON: " ++ e), none⟩, s)

/-! ## Concrete fixtures mirroring the repository's own test setup -/

/-- Environment without symlinks or injected faults: every path resolves to
itself. -/
def envId : Env := ⟨fun p => some p, "t0", false, false⟩

/-- Environment in which `json.dump` raises (a serialization failure). -/
def envDump : Env := ⟨fun p => some p, "t0", true, false⟩

/-- The schema of the repository's test (`name`: string, `age`: number,
`name` required). -/
def demoSchema : JsonSchema :=
  ⟨some .object, [("name", .string), ("age", .number)], ["name"]⟩

/-- A store confined to `base` with no default schema. -/
def hBase : JsonHandler := ⟨some ["base"], none, 10000000⟩

/-- A store confined to `base` with `demoSchema` as its default schema. -/
def hSchema : JsonHandler := ⟨some ["base"], some demoSchema, 10000000⟩

/-- Target path `base/test.json`. -/
def pTest : FPath := ⟨["base"], "test.json"⟩

/-- Target path `base/invalid.json`. -/
def pInvalid : FPath := ⟨["base"], "invalid.json"⟩

/-- A path outside the containment root. -/
def pOutside : FPath := ⟨["other"], "outside.json"⟩

/-- Target path `base/arr.json`. -/
def pArr : FPath := ⟨["base"], "arr.json"⟩

/-- The test's valid document. -/
def dJohn : Json := .obj [("name", .str "John"), ("age", .num 30)]

/-- The test's schema-violating document. -/
def dInvalid : Json := .obj [("age", .str "invalid")]

/-- Filesystem with `test.json` holding `dJohn`. -/
def stTest : FSState := ⟨[(pTest, .wellFormed dJohn)], [[], ["base"]]⟩

/-- Filesystem with `test.json` holding `dInvalid`. -/
def stInvalid : FSState := ⟨[(pTest, .wellFormed dInvalid)], [[], ["base"]]⟩

/-- Filesystem with `arr.json` holding the well-formed non-object `[1]`. -/
def stArr : FSState := ⟨[(pArr, .wellFormed (.arr [.num 1]))], [[], ["base"]]⟩

/-! ## Basic lemmas about the filesystem model -/

theorem find?_filter_ne {α β : Type} [DecidableEq α] (l : List (α × β))
    (p q : α) (h : q ≠ p) :
    (l.filter (fun e => decide (e.1 ≠ p))).find? (fun e => decide (e.1 = q))
      = l.find? (fun e => decide (e.1 = q)) := by
  induction l with
  | nil => rfl
  | cons e l ih =>
    by_cases hp : e.1 = p
    · have hq : (decide (e.1 = q)) = false :=
        decide_eq_false (fun hh => h (hh ▸ hp))
      have hf : (decide (e.1 ≠ p)) = false :=
        decide_eq_false (fun hh => hh hp)
      rw [List.filter_cons, hf, if_neg Bool.false_ne_true, List.find?_cons, hq]
      exact ih
    · have hf : (decide (e.1 ≠ p)) = true := by
        rw [decide_eq_true_eq]
        exact hp
      rw [List.filter_cons, hf, if_pos rfl, List.find?_cons, List.find?_cons]
      cases hd : decide (e.1 = q)
      · exact ih
      · rfl

theorem find?_filter_all_ne {α β : Type} [DecidableEq α]
    (l : List (α × β)) (p : α) :
    (l.filter (fun e => decide (e.1 ≠ p))).find? (fun e => decide (e.1 = p))
      = none := by
  induction l with
  | nil => rfl
  | cons e l ih =>
    by_cases hp : e.1 = p
    · have hf : (decide (e.1 ≠ p)) = false :=
        decide_eq_false (fun hh => hh hp)
      rw [List.filter_cons, hf, if_neg Bool.false_ne_true]
      exact ih
    · have hf : (decide (e.1 ≠ p)) = true := by
        rw [decide_eq_true_eq]
        exact hp
      have hq : (decide (e.1 = p)) = false := decide_eq_false hp
      rw [List.filter_cons, hf, if_pos rfl, List.find?_cons, hq]
      exact ih

theorem getFile_setFile (s : FSState) (p q : FPath) (c : FileContent) :
    (s.setFile p c).getFile q = if q = p then some c else s.getFile q := by
  simp only [FSState.setFile, FSState.getFile, List.find?_cons]
  by_cases h : q = p
  · subst h
    have hd : (decide (q = q)) = true := by rw [decide_eq_true_eq]
    rw [hd, if_pos rfl]
    rfl
  · have hd : (decide (p = q)) = false := decide_eq_false (fun hh => h hh.symm)
    rw [hd, if_neg h]
    exact congrArg (Option.map (fun e => e.2)) (find?_filter_ne s.files p q h)

theorem getFile_removeFile (s : FSState) (p q : FPath) :
    (s.removeFile p).getFile q = if q = p then none else s.getFile q := by
  by_cases h : q = p
  · subst h
    rw [if_pos rfl]
    exact congrArg (Option.map (·.2)) (find?_filter_all_ne s.files q)
  · rw [if_neg h]
    exact congrArg (Option.map (·.2)) (find?_filter_ne s.files p q h)

theorem getFile_mkdirParents (s : FSState) (p q : FPath) :
    (s.mkdirParents p).getFile q = s.getFile q := rfl

theorem getFile_setFile_same (s : FSState) (p : FPath) (c : FileContent) :
    (s.setFile p c).getFile p = some c := by
  rw [getFile_setFile, if_pos rfl]

theorem getFile_setFile_other (s : FSState) (p q : FPath) (c : FileContent)
    (hq : q ≠ p) : (s.setFile p c).getFile q = s.getFile q := by
  rw [getFile_setFile, if_neg hq]

theorem getFile_removeFile_same (s : FSState) (p : FPath) :
    (s.removeFile p).getFile p = none := by
  rw [getFile_removeFile, if_pos rfl]

theorem getFile_removeFile_other (s : FSState) (p q : FPath) (hq : q ≠ p) :
    (s.removeFile p).getFile q = s.getFile q := by
  rw [getFile_removeFile, if_neg hq]

theorem copyFile_of_src {s : FSState} {src : FPath} {c : FileContent}
    (h : s.getFile src = some c) (dst : FPath) :
    s.copyFile src dst = s.setFile dst c := by
  simp [FSState.copyFile, h]

theorem getFile_copyFile_other (s : FSState) (src dst q : FPath)
    (hq : q ≠ dst) : (s.copyFile src dst).getFile q = s.getFile q := by
  unfold FSState.copyFile
  split
  · rw [getFile_setFile, if_neg hq]
  · rfl

theorem getFile_cleanupTemp (st : FSState) (a tc : Bool) (tp q : FPath)
    (hq : q ≠ tp) : (cleanupTemp st a tc tp).getFile q = st.getFile q := by
  unfold cleanupTemp
  split
  · rw [getFile_removeFile, if_neg hq]
  · rfl

theorem existsAt_of_getFile {s : FSState} {p : FPath} {c : FileContent}
    (h : s.getFile p = some c) : s.existsAt p = true := by
  simp [FSState.existsAt, h]

/-! ## Path distinctness: the backup and temporary paths never collide with
the target (their names strictly extend the target's name). -/

theorem bakPath_name_len (p : FPath) :
    (bakPath p).name.length = p.name.length + 4 := by
  have h4 : ".bak".length = 4 := by decide
  show (p.name ++ ".bak").length = p.name.length + 4
  rw [String.length_append, h4]

theorem tempPathFor_name_len (p : FPath) (tag : String) :
    (tempPathFor p tag).name.length = p.name.length + tag.length + 6 := by
  have h1 : ".".length = 1 := by decide
  have h4 : ".tmp".length = 4 := by decide
  show ("." ++ p.name ++ "." ++ tag ++ ".tmp").length
      = p.name.length + tag.length + 6
  rw [String.length_append, String.length_append, String.length_append,
    String.length_append, h1, h4]
  omega

theorem bakPath_ne (p : FPath) : bakPath p ≠ p := by
  intro h
  have hl := congrArg (fun q => q.name.length) h
  simp only [bakPath_name_len] at hl
  omega

theorem tempPathFor_ne (p : FPath) (tag : String) : tempPathFor p tag ≠ p := by
  intro h
  have hl := congrArg (fun q => q.name.length) h
  simp only [tempPathFor_name_len] at hl
  omega

theorem tempPathFor_ne_bak (p : FPath) (tag : String) :
    tempPathFor p tag ≠ bakPath p := by
  intro h
  have hl := congrArg (fun q => q.name.length) h
  simp only [tempPathFor_name_len, bakPath_name_len] at hl
  omega

/-! ## Error messages are never empty -/

theorem append_ne_empty {s : String} (t : String) (hs : s.length ≠ 0) :
    s ++ t ≠ "" := by
  intro h
  have hl := congrArg String.length h
  rw [String.length_append] at hl
  have h0 : String.length "" = 0 := rfl
  omega

theorem validate_path_msg_ne {h : JsonHandler} {env : Env} {p : FPath}
    {m : String} (hm : validate_path h env p = some m) : m ≠ "" := by
  unfold validate_path at hm
  split at hm
  · split at hm
    · split at hm
      · exact absurd hm (by simp)
      · cases hm; decide
    · exact absurd hm (by simp)
  · cases hm; decide

theorem validate_schema_form {h : JsonHandler} {d : Json} {m : String}
    (hm : validate_schema h d = some m) :
    ∃ m', m = "Schema validation error: " ++ m' := by
  unfold validate_schema at hm
  split at hm
  · split at hm
    · cases hm; exact ⟨_, rfl⟩
    · exact absurd hm (by simp)
  · exact absurd hm (by simp)

theorem validate_schema_msg_ne {h : JsonHandler} {d : Json} {m : String}
    (hm : validate_schema h d = some m) : m ≠ "" := by
  obtain ⟨m', rfl⟩ := validate_schema_form hm
  exact append_ne_empty m' (by decide)

/-! ## Characterizations of `read` and `write` by branch -/

theorem read_vp_fail (h : JsonHandler) (env : Env) (st : FSState) (p : FPath)
    (us : Bool) (so : Option JsonSchema) {m : String}
    (hvp : validate_path h env p = some m) :
    read h env st p us so = ⟨none, false, some m, some p⟩ := by
  unfold read readExc
  rw [hvp]

theorem write_vp_fail (h : JsonHandler) (env : Env) (st : FSState) (d : Json)
    (p : FPath) (i : Nat) (ea b a : Bool) (so : Option JsonSchema)
    {m : String} (hvp : validate_path h env p = some m) :
    write h env st d p i ea b a so = (⟨none, false, some m, none⟩, st) := by
  unfold write writeExc
  rw [hvp]

theorem write_vs_fail (h : JsonHandler) (env : Env) (st : FSState) (d : Json)
    (p : FPath) (i : Nat) (ea b a : Bool) (so : Option JsonSchema)
    {m : String} (hvp : validate_path h env p = none)
    (hvs : validate_schema h d = some m) :
    write h env st d p i ea b a so = (⟨none, false, some m, none⟩, st) := by
  unfold write writeExc
  rw [hvp, hvs]

theorem write_main_eq (h : JsonHandler) (env : Env) (st : FSState) (d : Json)
    (p : FPath) (i : Nat) (ea b a : Bool) (so : Option JsonSchema)
    (hvp : validate_path h env p = none) (hvs : validate_schema h d = none) :
    write h env st d p i ea b a so =
      (let st1 := st.mkdirParents p
       let bm := b && st1.existsAt p
       let st2 := if bm then st1.copyFile p (bakPath p) else st1
       match writeAttempt env st2 d p a with
       | (st3, tc, none) =>
         (⟨some d, true, none, some p⟩,
          cleanupTemp st3 a tc (tempPathFor p env.tempTag))
       | (st3, tc, some e) =>
         let st4 := if b && bm && (st3.getFile (bakPath p)).isSome
                    then st3.copyFile (bakPath p) p else st3
         (⟨none, false, some ("Error writing JSON: " ++ e), none⟩,
          cleanupTemp st4 a tc (tempPathFor p env.tempTag))) := by
  unfold write writeExc
  rw [hvp, hvs]
  dsimp only
  generalize writeAttempt env
      (if b && (st.mkdirParents p).existsAt p
       then (st.mkdirParents p).copyFile p (bakPath p)
       else st.mkdirParents p) d p a = X
  rcases X with ⟨st3, tc, _ | e⟩
  · rfl
  · rfl

theorem read_content_eq (h : JsonHandler) (env : Env) (st : FSState)
    (p : FPath) (us : Bool) (so : Option JsonSchema) {c : FileContent}
    (hvp : validate_path h env p = none) (hc : st.getFile p = some c)
    (hsize : fileSize c ≤ h.max_size_bytes) :
    read h env st p us so =
      (match (if us then streamingParse c else eagerParse c) with
       | .error e =>
         ⟨none, false, some ("Error reading JSON: " ++ e), some p⟩
       | .ok data =>
         match validate_schema h data with
         | some m => ⟨none, false, some m, some p⟩
         | none => ⟨some data, true, none, some p⟩) := by
  unfold read readExc
  rw [hvp]
  have hex : st.existsAt p = true := existsAt_of_getFile hc
  rw [hex, hc]
  have hgt : ¬ (fileSize c > h.max_size_bytes) := by omega
  rw [if_neg (by simp)]
  dsimp only
  rw [if_neg hgt]
  generalize (if us then streamingParse c else eagerParse c) = P
  rcases P with e | data
  · rfl
  · dsimp only
    rcases hvs : validate_schema h data with _ | m <;> rfl

theorem write_noFault_result (h : JsonHandler) (env : Env) (st : FSState)
    (d : Json) (p : FPath) (i : Nat) (ea b a : Bool) (so : Option JsonSchema)
    (hvp : validate_path h env p = none) (hvs : validate_schema h d = none)
    (hdf : env.dumpFail = false) (hrf : env.replaceFail = false) :
    (write h env st d p i ea b a so).1 = ⟨some d, true, none, some p⟩ := by
  rw [write_main_eq h env st d p i ea b a so hvp hvs]
  cases a <;> simp [writeAttempt, cleanupTemp, hdf, hrf]

theorem write_noFault_target (h : JsonHandler) (env : Env) (st : FSState)
    (d : Json) (p : FPath) (i : Nat) (ea b a : Bool) (so : Option JsonSchema)
    (hvp : validate_path h env p = none) (hvs : validate_schema h d = none)
    (hdf : env.dumpFail = false) (hrf : env.replaceFail = false) :
    (write h env st d p i ea b a so).2.getFile p = some (.wellFormed d) := by
  rw [write_main_eq h env st d p i ea b a so hvp hvs]
  cases a
  · simp [writeAttempt, cleanupTemp, hdf, getFile_setFile]
  · simp [writeAttempt, cleanupTemp, hdf, hrf, getFile_setFile,
      getFile_removeFile, tempPathFor_ne p env.tempTag]

theorem write_backup_fail_target (h : JsonHandler) (env : Env) (st : FSState)
    (d : Json) (p : FPath) (i : Nat) (ea a : Bool) (so : Option JsonSchema)
    (c : FileContent) (hc : st.getFile p = some c)
    (hfail : (write h env st d p i ea true a so).1.success = false) :
    (write h env st d p i ea true a so).2.getFile p = some c := by
  cases hvp : validate_path h env p with
  | some m => rw [write_vp_fail h env st d p i ea true a so hvp]; exact hc
  | none =>
    cases hvs : validate_schema h d with
    | some m => rw [write_vs_fail h env st d p i ea true a so hvp hvs]; exact hc
    | none =>
      rw [write_main_eq h env st d p i ea true a so hvp hvs] at hfail ⊢
      have hex : (st.mkdirParents p).existsAt p = true :=
        existsAt_of_getFile (show (st.mkdirParents p).getFile p = some c from hc)
      cases a <;> cases hdf : env.dumpFail <;> cases hrf : env.replaceFail <;>
        simp [writeAttempt, cleanupTemp, hex, hdf, hrf, getFile_setFile,
          getFile_removeFile, getFile_copyFile_other, copyFile_of_src,
          getFile_mkdirParents, tempPathFor_ne p env.tempTag,
          tempPathFor_ne_bak p env.tempTag, bakPath_ne p,
          (tempPathFor_ne p env.tempTag).symm,
          (tempPathFor_ne_bak p env.tempTag).symm,
          (bakPath_ne p).symm, hc] at hfail ⊢

theorem write_success_target (h : JsonHandler) (env : Env) (st : FSState)
    (d : Json) (p : FPath) (i : Nat) (ea b a : Bool) (so : Option JsonSchema)
    (hs : (write h env st d p i ea b a so).1.success = true) :
    (write h env st d p i ea b a so).2.getFile p = some (.wellFormed d) := by
  cases hvp : validate_path h env p with
  | some m => rw [write_vp_fail h env st d p i ea b a so hvp] at hs; simp at hs
  | none =>
    cases hvs : validate_schema h d with
    | some m =>
      rw [write_vs_fail h env st d p i ea b a so hvp hvs] at hs; simp at hs
    | none =>
      rw [write_main_eq h env st d p i ea b a so hvp hvs] at hs ⊢
      cases a <;> cases hdf : env.dumpFail <;> cases hrf : env.replaceFail <;>
        simp [writeAttempt, cleanupTemp, hdf, hrf, getFile_setFile,
          getFile_removeFile, getFile_copyFile_other,
          tempPathFor_ne p env.tempTag, (tempPathFor_ne p env.tempTag).symm,
          tempPathFor_ne_bak p env.tempTag,
          (tempPathFor_ne_bak p env.tempTag).symm,
          bakPath_ne p, (bakPath_ne p).symm] at hs ⊢

theorem write_atomic_preserves_target (h : JsonHandler) (env : Env)
    (st : FSState) (d : Json) (p : FPath) (i : Nat) (ea b : Bool)
    (so : Option JsonSchema)
    (hc : st.getFile p = some (.wellFormed d)) :
    (write h env st d p i ea b true so).2.getFile p
      = some (.wellFormed d) := by
  cases hvp : validate_path h env p with
  | some m => rw [write_vp_fail h env st d p i ea b true so hvp]; exact hc
  | none =>
    cases hvs : validate_schema h d with
    | some m => rw [write_vs_fail h env st d p i ea b true so hvp hvs]; exact hc
    | none =>
      rw [write_main_eq h env st d p i ea b true so hvp hvs]
      have hex : (st.mkdirParents p).existsAt p = true :=
        existsAt_of_getFile
          (show (st.mkdirParents p).getFile p = some (.wellFormed d) from hc)
      cases b <;> cases hdf : env.dumpFail <;> cases hrf : env.replaceFail <;>
        simp [writeAttempt, cleanupTemp, hex, hdf, hrf, getFile_setFile,
          getFile_removeFile, getFile_copyFile_other, copyFile_of_src,
          getFile_mkdirParents, tempPathFor_ne p env.tempTag,
          (tempPathFor_ne p env.tempTag).symm,
          tempPathFor_ne_bak p env.tempTag,
          (tempPathFor_ne_bak p env.tempTag).symm,
          bakPath_ne p, (bakPath_ne p).symm, hc]

theorem write_atomic_no_temp (h : JsonHandler) (env : Env) (st : FSState)
    (d : Json) (p : FPath) (i : Nat) (ea b : Bool) (so : Option JsonSchema)
    (hpre : st.getFile (tempPathFor p env.tempTag) = none) :
    (write h env st d p i ea b true so).2.getFile (tempPathFor p env.tempTag)
      = none := by
  cases hvp : validate_path h env p with
  | some m => rw [write_vp_fail h env st d p i ea b true so hvp]; exact hpre
  | none =>
    cases hvs : validate_schema h d with
    | some m =>
      rw [write_vs_fail h env st d p i ea b true so hvp hvs]; exact hpre
    | none =>
      rw [write_main_eq h env st d p i ea b true so hvp hvs]
      cases b <;> cases hex : (st.mkdirParents p).existsAt p <;>
        cases hgp : st.getFile p <;> cases hgb : st.getFile (bakPath p) <;>
        cases hdf : env.dumpFail <;> cases hrf : env.replaceFail <;>
        simp [writeAttempt, cleanupTemp, FSState.copyFile, hex, hgp, hgb, hdf, hrf,
          getFile_setFile, getFile_removeFile, getFile_mkdirParents,
          tempPathFor_ne p env.tempTag, (tempPathFor_ne p env.tempTag).symm,
          tempPathFor_ne_bak p env.tempTag,
          (tempPathFor_ne_bak p env.tempTag).symm,
          bakPath_ne p, (bakPath_ne p).symm, hpre]

theorem read_cases (h : JsonHandler) (env : Env) (st : FSState) (p : FPath)
    (us : Bool) (so : Option JsonSchema) :
    (∃ v, read h env st p us so = ⟨some v, true, none, some p⟩)
    ∨ (∃ m, read h env st p us so = ⟨none, false, some m, some p⟩) := by
  unfold read readExc
  split
  next r heq =>
    repeat' split at heq
    all_goals cases heq
    all_goals first
      | (left; exact ⟨_, rfl⟩)
      | (right; exact ⟨_, rfl⟩)
  next e heq => right; exact ⟨_, rfl⟩

theorem write_cases (h : JsonHandler) (env : Env) (st : FSState) (d : Json)
    (p : FPath) (i : Nat) (ea b a : Bool) (so : Option JsonSchema) :
    ((write h env st d p i ea b a so).1 = ⟨some d, true, none, some p⟩)
    ∨ (∃ m, (write h env st d p i ea b a so).1
        = ⟨none, false, some m, none⟩) := by
  cases hvp : validate_path h env p with
  | some m => rw [write_vp_fail h env st d p i ea b a so hvp]; right; exact ⟨_, rfl⟩
  | none =>
    cases hvs : validate_schema h d with
    | some m =>
      rw [write_vs_fail h env st d p i ea b a so hvp hvs]; right; exact ⟨_, rfl⟩
    | none =>
      rw [write_main_eq h env st d p i ea b a so hvp hvs]
      dsimp only
      generalize writeAttempt env
          (if b && (st.mkdirParents p).existsAt p
           then (st.mkdirParents p).copyFile p (bakPath p)
           else st.mkdirParents p) d p a = X
      rcases X with ⟨st3, tc, _ | e⟩
      · left; rfl
      · right; exact ⟨_, rfl⟩

theorem read_not_found (h : JsonHandler) (env : Env) (st : FSState)
    (p : FPath) (us : Bool) (so : Option JsonSchema)
    (hvp : validate_path h env p = none) (hex : st.existsAt p = false) :
    read h env st p us so
      = ⟨none, false, some ("File not found: " ++ p.render), some p⟩ := by
  unfold read readExc
  rw [hvp, hex, if_pos (by simp)]

theorem read_not_a_file (h : JsonHandler) (env : Env) (st : FSState)
    (p : FPath) (us : Bool) (so : Option JsonSchema)
    (hvp : validate_path h env p = none) (hex : st.existsAt p = true)
    (hgf : st.getFile p = none) :
    read h env st p us so
      = ⟨none, false, some ("Not a file: " ++ p.render), some p⟩ := by
  unfold read readExc
  rw [hvp, hex, hgf, if_neg (by simp)]

theorem read_too_large (h : JsonHandler) (env : Env) (st : FSState)
    (p : FPath) (us : Bool) (so : Option JsonSchema) {c : FileContent}
    (hvp : validate_path h env p = none) (hc : st.getFile p = some c)
    (hsz : fileSize c > h.max_size_bytes) :
    read h env st p us so
      = ⟨none, false, some ("File too large: " ++ p.render), some p⟩ := by
  unfold read readExc
  rw [hvp, existsAt_of_getFile hc, hc]
  rw [if_neg (by simp)]
  dsimp only
  rw [if_pos hsz]

theorem read_result_spec (h : JsonHandler) (env : Env) (st : FSState)
    (p : FPath) (us : Bool) (so : Option JsonSchema) :
    (∃ v, read h env st p us so = ⟨some v, true, none, some p⟩)
    ∨ (∃ m, read h env st p us so = ⟨none, false, some m, some p⟩
        ∧ m ≠ "") := by
  cases hvp : validate_path h env p with
  | some m =>
    right
    exact ⟨m, read_vp_fail h env st p us so hvp, validate_path_msg_ne hvp⟩
  | none =>
    cases hex : st.existsAt p with
    | false =>
      right
      exact ⟨_, read_not_found h env st p us so hvp hex,
        append_ne_empty _ (by decide)⟩
    | true =>
      cases hgf : st.getFile p with
      | none =>
        right
        exact ⟨_, read_not_a_file h env st p us so hvp hex hgf,
          append_ne_empty _ (by decide)⟩
      | some c =>
        by_cases hsz : fileSize c ≤ h.max_size_bytes
        · rw [read_content_eq h env st p us so hvp hgf hsz]
          generalize (if us then streamingParse c else eagerParse c) = P
          rcases P with e | data
          · right
            exact ⟨_, rfl, append_ne_empty _ (by decide)⟩
          · dsimp only
            cases hvs : validate_schema h data with
            | some m => right; exact ⟨m, rfl, validate_schema_msg_ne hvs⟩
            | none => left; exact ⟨data, rfl⟩
        · right
          exact ⟨_, read_too_large h env st p us so hvp hgf (by omega),
            append_ne_empty _ (by decide)⟩

theorem write_result_spec (h : JsonHandler) (env : Env) (st : FSState)
    (d : Json) (p : FPath) (i : Nat) (ea b a : Bool)
    (so : Option JsonSchema) :
    ((write h env st d p i ea b a so).1 = ⟨some d, true, none, some p⟩)
    ∨ (∃ m, (write h env st d p i ea b a so).1
        = ⟨none, false, some m, none⟩ ∧ m ≠ "") := by
  cases hvp : validate_path h env p with
  | some m =>
    right
    rw [write_vp_fail h env st d p i ea b a so hvp]
    exact ⟨m, rfl, validate_path_msg_ne hvp⟩
  | none =>
    cases hvs : validate_schema h d with
    | some m =>
      right
      rw [write_vs_fail h env st d p i ea b a so hvp hvs]
      exact ⟨m, rfl, validate_schema_msg_ne hvs⟩
    | none =>
      rw [write_main_eq h env st d p i ea b a so hvp hvs]
      dsimp only
      generalize writeAttempt env
          (if b && (st.mkdirParents p).existsAt p
           then (st.mkdirParents p).copyFile p (bakPath p)
           else st.mkdirParents p) d p a = X
      rcases X with ⟨st3, tc, _ | e⟩
      · left; rfl
      · right; exact ⟨_, rfl, append_ne_empty _ (by decide)⟩

/-! ## Claim theorems -/

/-- C1: the claim says a per-call `schemaOverride` takes precedence and
causes `SchemaViolation` failures, as the parameter's own docstring
promises.  The code never uses the parameter: `_validate_schema` consults
only the store's default schema.  With no default schema, a read of data
violating the override and a write of data violating the override both
succeed, exactly as evaluated here (the first conjunct shows the override
would indeed reject the data). -/
theorem c1_schema_override_ignored :
    jsValidate demoSchema dInvalid = some "age is not of type number"
    ∧ read hBase envId stInvalid pTest false (some demoSchema)
        = ⟨some dInvalid, true, none, some pTest⟩
    ∧ (write hBase envId stTest dInvalid pInvalid 4 false true true
        (some demoSchema)).1
        = ⟨some dInvalid, true, none, some pInvalid⟩ :=
  ⟨rfl, rfl, rfl⟩

/-- C2 fails on the code at this input: a `read` whose path validation fails
(access denied) still returns the path in `file_path`, where the claim says
`file_path` is absent exactly then. -/
theorem c2_counterexample :
    (read hBase envId stTest pOutside false none).success = false
    ∧ (read hBase envId stTest pOutside false none).error_message
        = some "Access denied: File outside base path"
    ∧ (read hBase envId stTest pOutside false none).file_path ≠ none :=
  ⟨rfl, rfl, by decide⟩

/-- C2 (amended): `read` always returns the requested path in `file_path`,
including when path validation fails; `write` returns the path in
`file_path` exactly on success and `none` on every failure (path
validation, schema violation, or write error). -/
theorem c2_file_path_presence (h : JsonHandler) (env : Env) (st : FSState)
    (p : FPath) (us : Bool) (so : Option JsonSchema) (d : Json) (i : Nat)
    (ea b a : Bool) (so' : Option JsonSchema) :
    (read h env st p us so).file_path = some p
    ∧ ((write h env st d p i ea b a so').1.success = true →
        (write h env st d p i ea b a so').1.file_path = some p)
    ∧ ((write h env st d p i ea b a so').1.success = false →
        (write h env st d p i ea b a so').1.file_path = none) := by
  refine ⟨?_, ?_, ?_⟩
  · rcases read_cases h env st p us so with ⟨v, hv⟩ | ⟨m, hm⟩
    · rw [hv]
    · rw [hm]
  · intro hs
    rcases write_cases h env st d p i ea b a so' with h1 | ⟨m, h1⟩
    · rw [h1]
    · rw [h1] at hs
      cases hs
  · intro hs
    rcases write_cases h env st d p i ea b a so' with h1 | ⟨m, h1⟩
    · rw [h1] at hs
      cases hs
    · rw [h1]

/-- Witness for the amended C2 at concrete inputs: a successful read carries
the path, and a write that failed path validation carries `none`. -/
theorem c2_witness :
    (read hBase envId stTest pTest false none).file_path = some pTest
    ∧ (write hBase envId stTest dJohn pOutside 4 false true true
        none).1.file_path = none :=
  ⟨(c2_file_path_presence hBase envId stTest pTest false none dJohn 4 false
      true true none).1,
   (c2_file_path_presence hBase envId stTest pOutside false none dJohn 4
      false true true none).2.2 rfl⟩

/-- C5: for a store with a containment root, any path that resolves outside
it makes `read` and `write` fail with the access-denied message, and `write`
leaves the filesystem state completely unchanged (no directory, backup,
temporary file, or target is created or modified). -/
theorem c5_containment (h : JsonHandler) (env : Env) (st : FSState)
    (p : FPath) (us : Bool) (so : Option JsonSchema) (d : Json) (i : Nat)
    (ea b a : Bool) (so' : Option JsonSchema) (base : List String)
    (rp : FPath) (hb : h.base_path = some base)
    (hr : env.resolve p = some rp)
    (hout : base.isPrefixOf rp.components = false) :
    read h env st p us so
      = ⟨none, false, some "Access denied: File outside base path", some p⟩
    ∧ write h env st d p i ea b a so'
      = (⟨none, false, some "Access denied: File outside base path", none⟩,
         st) := by
  have hvp : validate_path h env p
      = some "Access denied: File outside base path" := by
    unfold validate_path
    rw [hr, hb]
    dsimp only
    rw [hout]
    rfl
  exact ⟨read_vp_fail h env st p us so hvp,
         write_vp_fail h env st d p i ea b a so' hvp⟩

/-- Witness for C5 at the repository test's own scenario: writing to
`<base's sibling>/outside.json` is denied and the state is untouched. -/
theorem c5_witness :
    read hBase envId stTest pOutside false none
      = ⟨none, false, some "Access denied: File outside base path",
         some pOutside⟩
    ∧ write hBase envId stTest dJohn pOutside 4 false true true none
      = (⟨none, false, some "Access denied: File outside base path", none⟩,
         stTest) :=
  c5_containment hBase envId stTest pOutside false none dJohn 4 false true
    true none ["base"] pOutside rfl rfl (by decide)

/-- C8: a write whose data violates the configured (store) schema fails with
the schema-validation message and leaves the filesystem state unchanged: no
parent directory, backup, temporary file, or target is created, because the
schema check precedes every mutation. -/
theorem c8_schema_violation_write (h : JsonHandler) (env : Env)
    (st : FSState) (d : Json) (p : FPath) (i : Nat) (ea b a : Bool)
    (so : Option JsonSchema) (m : String)
    (hvp : validate_path h env p = none)
    (hvs : validate_schema h d = some m) :
    write h env st d p i ea b a so = (⟨none, false, some m, none⟩, st)
    ∧ ∃ m', m = "Schema validation error: " ++ m' :=
  ⟨write_vs_fail h env st d p i ea b a so hvp hvs,
   validate_schema_form hvs⟩

/-- Witness for C8 at the repository test's own scenario: writing
`dInvalid` against `demoSchema` fails with the schema message and the state
is untouched. -/
theorem c8_witness :
    write hSchema envId stTest dInvalid pInvalid 4 false true true none
      = (⟨none, false,
          some "Schema validation error: age is not of type number", none⟩,
         stTest)
    ∧ ∃ m', "Schema validation error: age is not of type number"
        = "Schema validation error: " ++ m' :=
  c8_schema_violation_write hSchema envId stTest dInvalid pInvalid 4 false
    true true none _ rfl rfl


/-- C3: for an existing target file, a `write` with `backup=true` that
fails (for instance the serialization or the rename raises) leaves the
target with its original, byte-identical content: the backup taken before
the mutation is copied back over the target before the failure result is
returned (and when the failure precedes any mutation the target was never
touched). -/
theorem c3_backup_restores_on_failure (h : JsonHandler) (env : Env)
    (st : FSState) (d : Json) (p : FPath) (i : Nat) (ea a : Bool)
    (so : Option JsonSchema) (c : FileContent)
    (hc : st.getFile p = some c)
    (hfail : (write h env st d p i ea true a so).1.success = false) :
    (write h env st d p i ea true a so).2.getFile p = some c :=
  write_backup_fail_target h env st d p i ea a so c hc hfail

/-- Witness for C3: a serialization fault (`envDump`) makes the write fail,
and the target still holds its pre-write content afterwards. -/
theorem c3_witness :
    stTest.getFile pTest = some (.wellFormed dJohn)
    ∧ (write hBase envDump stTest dInvalid pTest 4 false true true
        none).1.success = false
    ∧ (write hBase envDump stTest dInvalid pTest 4 false true true
        none).2.getFile pTest = some (.wellFormed dJohn) :=
  ⟨rfl, rfl,
   c3_backup_restores_on_failure hBase envDump stTest dInvalid pTest 4
     false true none (.wellFormed dJohn) rfl rfl⟩

/-- C4: both public operations are total Lean functions of their inputs
(every call returns a `JsonOperationResult`, the embedding of the
outermost `try/except` that converts every escaped exception into a
result), every failure carries a non-empty `error_message`, and every
success carries no `error_message`. -/
theorem c4_operations_total (h : JsonHandler) (env : Env) (st : FSState)
    (p : FPath) (us : Bool) (so : Option JsonSchema) (d : Json) (i : Nat)
    (ea b a : Bool) (so' : Option JsonSchema) :
    ((read h env st p us so).success = false →
      ∃ m, (read h env st p us so).error_message = some m ∧ m ≠ "")
    ∧ ((read h env st p us so).success = true →
        (read h env st p us so).error_message = none)
    ∧ ((write h env st d p i ea b a so').1.success = false →
      ∃ m, (write h env st d p i ea b a so').1.error_message = some m
        ∧ m ≠ "")
    ∧ ((write h env st d p i ea b a so').1.success = true →
        (write h env st d p i ea b a so').1.error_message = none) := by
  refine ⟨?_, ?_, ?_, ?_⟩
  · intro hf
    rcases read_result_spec h env st p us so with ⟨v, hv⟩ | ⟨m, hm, hne⟩
    · rw [hv] at hf; cases hf
    · rw [hm]; exact ⟨m, rfl, hne⟩
  · intro hs
    rcases read_result_spec h env st p us so with ⟨v, hv⟩ | ⟨m, hm, hne⟩
    · rw [hv]
    · rw [hm] at hs; cases hs
  · intro hf
    rcases write_result_spec h env st d p i ea b a so' with h1 | ⟨m, h1, hne⟩
    · rw [h1] at hf; cases hf
    · rw [h1]; exact ⟨m, rfl, hne⟩
  · intro hs
    rcases write_result_spec h env st d p i ea b a so' with h1 | ⟨m, h1, hne⟩
    · rw [h1]
    · rw [h1] at hs; cases hs

/-- Witness for C4: a failing read yields a non-empty message, a
successful read yields no message. -/
theorem c4_witness :
    (∃ m, (read hBase envId stTest pOutside false none).error_message
        = some m ∧ m ≠ "")
    ∧ (read hBase envId stTest pTest false none).error_message = none :=
  ⟨(c4_operations_total hBase envId stTest pOutside false none dJohn 4
      false true true none).1 rfl,
   (c4_operations_total hBase envId stTest pTest false none dJohn 4 false
      true true none).2.1 rfl⟩

/-- C6 fails on the code at this input: the file `arr.json` holds the
well-formed JSON `[1]`; both reading modes succeed but the streaming mode
returns the empty mapping while the eager mode returns the array, so the
two modes do not produce the same logical result for every well-formed
file. -/
theorem c6_counterexample :
    (read hBase envId stArr pArr true none).success = true
    ∧ (read hBase envId stArr pArr false none).success = true
    ∧ (read hBase envId stArr pArr true none).data
        ≠ (read hBase envId stArr pArr false none).data := by
  refine ⟨rfl, rfl, ?_⟩
  intro hh
  have h1 : (read hBase envId stArr pArr true none).data
      = some (.obj []) := rfl
  have h2 : (read hBase envId stArr pArr false none).data
      = some (.arr [.num 1]) := rfl
  rw [h1, h2] at hh
  simp at hh

/-- C6 (amended): for every file whose content is well-formed JSON with a
top-level object, streaming and eager reads return the same result (same
success flag and equal data — in fact the whole results coincide). -/
theorem c6_streaming_eager_agree_on_objects (h : JsonHandler) (env : Env)
    (st : FSState) (p : FPath) (kvs : List (String × Json))
    (so : Option JsonSchema)
    (hc : st.getFile p = some (.wellFormed (.obj kvs))) :
    read h env st p true so = read h env st p false so := by
  cases hvp : validate_path h env p with
  | some m =>
    rw [read_vp_fail h env st p true so hvp,
        read_vp_fail h env st p false so hvp]
  | none =>
    by_cases hsz : fileSize (.wellFormed (.obj kvs)) ≤ h.max_size_bytes
    · rw [read_content_eq h env st p true so hvp hc hsz,
          read_content_eq h env st p false so hvp hc hsz]
      rfl
    · have hgt : fileSize (.wellFormed (.obj kvs)) > h.max_size_bytes := by
        omega
      rw [read_too_large h env st p true so hvp hc hgt,
          read_too_large h env st p false so hvp hc hgt]

/-- Witness for the amended C6 at a concrete object file. -/
theorem c6_witness :
    read hBase envId stTest pTest true none
      = read hBase envId stTest pTest false none :=
  c6_streaming_eager_agree_on_objects hBase envId stTest pTest
    [("name", .str "John"), ("age", .num 30)] none rfl

/-- C7 fails on the code at this input: `dInvalid` is a JSON-representable
mapping and `base/invalid.json` a valid target inside the containment
root, yet `write` returns `success=false` (the store's schema rejects the
data), so write-then-read does not succeed for every mapping and valid
path. -/
theorem c7_counterexample :
    (write hSchema envId stTest dInvalid pInvalid 4 false true true
      none).1.success = false := rfl

/-- C7 (amended): the round trip holds for data the store's schema accepts
whose serialized size is within `max_size_bytes`, when the underlying file
operations raise no exception: `write(d, p)` succeeds echoing `d`, and a
subsequent eager `read(p)` succeeds returning exactly `d`. -/
theorem c7_round_trip (h : JsonHandler) (env : Env) (st : FSState)
    (d : Json) (p : FPath) (i : Nat) (ea b a : Bool)
    (so so' : Option JsonSchema)
    (hvp : validate_path h env p = none)
    (hvs : validate_schema h d = none)
    (hsz : jsonSize d ≤ h.max_size_bytes)
    (hdf : env.dumpFail = false) (hrf : env.replaceFail = false) :
    (write h env st d p i ea b a so).1 = ⟨some d, true, none, some p⟩
    ∧ read h env (write h env st d p i ea b a so).2 p false so'
        = ⟨some d, true, none, some p⟩ := by
  have ht := write_noFault_target h env st d p i ea b a so hvp hvs hdf hrf
  refine ⟨write_noFault_result h env st d p i ea b a so hvp hvs hdf hrf, ?_⟩
  rw [read_content_eq h env _ p false so' hvp ht hsz]
  have hred : (if false = true
      then streamingParse (FileContent.wellFormed d)
      else eagerParse (FileContent.wellFormed d)) = Except.ok d := rfl
  rw [hred]
  dsimp only
  rw [hvs]

/-- Witness for the amended C7 at the repository test's own scenario:
write `dJohn` to `test.json` under the schema-carrying store, read it
back. -/
theorem c7_witness :
    (write hSchema envId stTest dJohn pTest 4 false true true none).1
      = ⟨some dJohn, true, none, some pTest⟩
    ∧ read hSchema envId
        (write hSchema envId stTest dJohn pTest 4 false true true none).2
        pTest false none
      = ⟨some dJohn, true, none, some pTest⟩ :=
  c7_round_trip hSchema envId stTest dJohn pTest 4 false true true none
    none rfl rfl (by decide) rfl rfl

/-- C9: writing the same data twice to the same path with `atomic=true`
leaves the same final content after each call (when the first call
succeeds, the target holds that data after both calls, whatever faults,
backup settings, or environments the second call sees), and an atomic
write never leaves its temporary file behind: if no file pre-exists at the
temporary path the call uses, none exists there after the call, whether it
succeeded or failed. -/
theorem c9_idempotent_no_temp_residue (h : JsonHandler) (env env' : Env)
    (st : FSState) (d : Json) (p : FPath) (i i' : Nat)
    (ea ea' b b' : Bool) (so so' : Option JsonSchema) :
    ((write h env st d p i ea b true so).1.success = true →
      (write h env st d p i ea b true so).2.getFile p
        = some (.wellFormed d)
      ∧ (write h env' (write h env st d p i ea b true so).2 d p i' ea' b'
          true so').2.getFile p = some (.wellFormed d))
    ∧ (st.getFile (tempPathFor p env.tempTag) = none →
        (write h env st d p i ea b true so).2.getFile
          (tempPathFor p env.tempTag) = none) := by
  constructor
  · intro hs
    have h1 := write_success_target h env st d p i ea b true so hs
    exact ⟨h1,
      write_atomic_preserves_target h env' _ d p i' ea' b' so' h1⟩
  · exact write_atomic_no_temp h env st d p i ea b so

/-- Witness for C9: a successful atomic write followed by a second atomic
write of the same data under a serialization fault still leaves the same
content, and the first call leaves no temporary file. -/
theorem c9_witness :
    ((write hBase envId stTest dJohn pTest 4 false true true none).2.getFile
        pTest = some (.wellFormed dJohn)
      ∧ (write hBase envDump
          (write hBase envId stTest dJohn pTest 4 false true true none).2
          dJohn pTest 4 false true true none).2.getFile pTest
        = some (.wellFormed dJohn))
    ∧ (write hBase envId stTest dJohn pTest 4 false true true
        none).2.getFile (tempPathFor pTest "t0") = none :=
  ⟨(c9_idempotent_no_temp_residue hBase envId envDump stTest dJohn pTest 4
      4 false false true true none none).1 rfl,
   (c9_idempotent_no_temp_residue hBase envId envDump stTest dJohn pTest 4
      4 false false true true none none).2 rfl⟩

/-- C10: for a file holding well-formed JSON whose top-level value is not
an object (here with no store schema, so nothing else interferes), the
streaming read succeeds with the empty mapping — `ijson.kvitems` yields no
members — while the eager read succeeds with the parsed value itself. -/
theorem c10_streaming_discards_nonobject (h : JsonHandler) (env : Env)
    (st : FSState) (p : FPath) (v : Json) (so so' : Option JsonSchema)
    (hvp : validate_path h env p = none) (hsch : h.schema = none)
    (hc : st.getFile p = some (.wellFormed v)) (hobj : v.isObj = false)
    (hsz : fileSize (.wellFormed v) ≤ h.max_size_bytes) :
    read h env st p true so = ⟨some (.obj []), true, none, some p⟩
    ∧ read h env st p false so' = ⟨some v, true, none, some p⟩ := by
  have hof : v.objFields = [] := by
    cases v with
    | obj kvs => exact absurd hobj (by simp [Json.isObj])
    | null => rfl
    | bool b => rfl
    | num n => rfl
    | str s => rfl
    | arr xs => rfl
  have hvs : ∀ w : Json, validate_schema h w = none := by
    intro w
    unfold validate_schema
    rw [hsch]
  constructor
  · rw [read_content_eq h env st p true so hvp hc hsz]
    have hred : (if true = true
        then streamingParse (FileContent.wellFormed v)
        else eagerParse (FileContent.wellFormed v))
        = Except.ok (Json.obj v.objFields) := rfl
    rw [hred]
    dsimp only
    rw [hof, hvs (.obj [])]
  · rw [read_content_eq h env st p false so' hvp hc hsz]
    have hred : (if false = true
        then streamingParse (FileContent.wellFormed v)
        else eagerParse (FileContent.wellFormed v))
        = Except.ok v := rfl
    rw [hred]
    dsimp only
    rw [hvs v]

/-- Witness for C10 at the concrete array file `arr.json`. -/
theorem c10_witness :
    read hBase envId stArr pArr true none
      = ⟨some (.obj []), true, none, some pArr⟩
    ∧ read hBase envId stArr pArr false none
      = ⟨some (.arr [.num 1]), true, none, some pArr⟩ :=
  c10_streaming_discards_nonobject hBase envId stArr pArr (.arr [.num 1])
    none none rfl rfl rfl rfl (by decide)


end JsonHandlerModel
